import Mathlib

/-!
Verification development for the proof-oracle core of the caesar repository
(files `z3rro/src/prover.rs` and `z3rro/src/model.rs`).

The Rust code is shallowly embedded: stateful methods become explicit
state-passing functions, `panic!`-style failures become `Option`/a dedicated
result constructor, and the external backends (the z3 crate and the external
`swine` executable) are parameters of the embedding, since they are not part
of this repository.
-/

namespace Caesar

/-! ## String utilities (mirroring the Rust `str` methods used by the code) -/

/-- Substring containment, mirroring Rust `str::contains` on char lists. -/
def containsSub : List Char → List Char → Bool
  | [], needle => needle.isEmpty
  | c :: rest, needle => needle.isPrefixOf (c :: rest) || containsSub rest needle

/-- Substring containment on strings, mirroring Rust `str::contains`. -/
def containsSubstr (hay pat : String) : Bool :=
  containsSub hay.toList pat.toList

/-- Rust `char::is_ascii_whitespace`: space, tab, newline, form feed, carriage return. -/
def isAsciiWs (c : Char) : Bool :=
  c = ' ' || c = '\t' || c = '\n' || c = Char.ofNat 12 || c = '\r'

/-- Core of `str::split_ascii_whitespace`: split into maximal non-whitespace runs,
dropping empty chunks. The accumulator `cur` holds the current run reversed. -/
def splitWsCore : List Char → List Char → List (List Char)
  | [], cur => if cur.isEmpty then [] else [cur.reverse]
  | c :: rest, cur =>
    if isAsciiWs c then
      if cur.isEmpty then splitWsCore rest []
      else cur.reverse :: splitWsCore rest []
    else splitWsCore rest (c :: cur)

/-- Rust `str::split_ascii_whitespace`, collected to a list of token strings. -/
def splitAsciiWhitespace (s : String) : List (List Char) :=
  splitWsCore s.toList []

/-- Core of `str::replace(needle, "")`: when `skip` is positive the current
character belongs to an already-matched occurrence and is dropped; otherwise
a match starting here drops its first character and schedules the rest. -/
def removeAllAux (needle : List Char) : List Char → Nat → List Char
  | [], _ => []
  | _ :: rest, k + 1 => removeAllAux needle rest k
  | c :: rest, 0 =>
    if needle ≠ [] ∧ needle.isPrefixOf (c :: rest) then
      removeAllAux needle rest (needle.length - 1)
    else
      c :: removeAllAux needle rest 0

/-- Rust `str::replace(needle, "")`: remove every non-overlapping occurrence of
`needle`, scanning left to right. -/
def removeAll (needle : List Char) (hay : List Char) : List Char :=
  removeAllAux needle hay 0

/-- Numeric value of a run of decimal digit characters. -/
def digitsVal (cs : List Char) : Nat :=
  cs.foldl (fun acc c => acc * 10 + (c.toNat - 48)) 0

/-- Rust `num::BigInt::from_str`: an optional sign followed by one or more
decimal digits; anything else is a parse failure. -/
def parseBigInt (cs : List Char) : Option Int :=
  match cs with
  | '+' :: rest =>
    if rest ≠ [] ∧ rest.all Char.isDigit then some (digitsVal rest) else none
  | '-' :: rest =>
    if rest ≠ [] ∧ rest.all Char.isDigit then some (-(digitsVal rest : Int)) else none
  | _ =>
    if cs ≠ [] ∧ cs.all Char.isDigit then some (digitsVal cs) else none

/-! ## Formulas

The formula language fed to the solver is external to this core (spec §3:
"an immutable boolean-valued term in the backend's term algebra"). We model it
as propositional formulas over numbered variables plus the universal
quantifier produced by `to_exists_forall`. `Bool::and` over a slice is
modelled by folding the binary conjunction. -/

inductive Formula where
  | tt : Formula
  | ff : Formula
  | var : Nat → Formula
  | not : Formula → Formula
  | and : Formula → Formula → Formula
  | forallQ : List Nat → Formula → Formula
deriving DecidableEq, Repr

/-- Model of `z3::ast::Bool::and` applied to a list of assertions. -/
def conjList (fs : List Formula) : Formula :=
  fs.foldr Formula.and Formula.tt

/-- Point update of a valuation. -/
def updVal (σ : Nat → Bool) (v : Nat) (b : Bool) : Nat → Bool :=
  fun x => if x = v then b else σ x

/-- All valuations extending `σ` on the listed variables. -/
def extensions (σ : Nat → Bool) : List Nat → List (Nat → Bool)
  | [] => [σ]
  | v :: vs =>
    (extensions σ vs).flatMap (fun τ => [updVal τ v false, updVal τ v true])

/-- Truth value of a formula under a valuation. -/
def Formula.eval (σ : Nat → Bool) : Formula → Bool
  | .tt => true
  | .ff => false
  | .var n => σ n
  | .not f => !(f.eval σ)
  | .and f g => f.eval σ && g.eval σ
  | .forallQ ids body => (extensions σ ids).all (fun τ => body.eval τ)

/-- Variables occurring in a formula (bound ones included, harmlessly). -/
def Formula.varsOf : Formula → List Nat
  | .tt => []
  | .ff => []
  | .var n => [n]
  | .not f => f.varsOf
  | .and f g => f.varsOf ++ g.varsOf
  | .forallQ ids body => ids ++ body.varsOf

/-- Decidable satisfiability of the conjunction of a list of formulas:
enumerate all valuations of the occurring variables. This is the ideal
semantics that an external complete backend decides. -/
def satFormulas (fs : List Formula) : Bool :=
  let vs := (fs.map Formula.varsOf).flatten
  (extensions (fun _ => false) vs).any (fun σ => fs.all (fun f => f.eval σ))

/-! ## Results and backends (`prover.rs`) -/

/-- Model of `z3::SatResult`. -/
inductive SatResult where
  | sat
  | unsat
  | unknown
deriving DecidableEq, Repr

/-- Model of `SolverType` from `prover.rs`. -/
inductive SolverType where
  | Z3
  | SWINE
deriving DecidableEq, Repr

/-- Modelled from the spec: the diagnostic reason attached to an indeterminate
verdict (type `ReasonUnknown` lives in `util.rs`, outside the embedded core);
the code of `prover.rs` only constructs its `Other` variant. -/
inductive ReasonUnknown where
  | other : String → ReasonUnknown
deriving DecidableEq, Repr

/-- Model of `ProveResult`. The model payload type is a parameter because
models are produced by the external solver. The `exited` constructor models
`process::exit(1)` (a hard process termination, not a returned value). -/
inductive ProveResult (M : Type) where
  | proof
  | counterexample : M → ProveResult M
  | unknown : ReasonUnknown → ProveResult M
  | exited : Nat → ProveResult M
deriving DecidableEq, Repr

/-- Classification part of `execute_swine`: the captured standard output of
the external `swine` process is scanned for the literal substrings
"unsat" and "sat". The process invocation itself is external I/O; this
function receives the captured stdout text. -/
def execute_swine (stdout : String) : SatResult :=
  if containsSubstr stdout "unsat" then .unsat
  else if containsSubstr stdout "sat" then .sat
  else .unknown

/-- Should a balanced-parenthesis group be kept by `remove_lines_for_swine`? -/
def swineKeep (tmp : List Char) : Bool :=
  !(containsSub tmp "declare-fun exp".toList) && !(containsSub tmp "forall".toList)

/-- Core loop of `remove_lines_for_swine`: chars are pushed into `tmp`; when
the parenthesis counter returns to zero at a `)` the group is flushed to the
output unless it mentions `declare-fun exp` or a quantifier. -/
def removeLinesCore : List Char → List Char → Int → List Char
  | [], _, _ => []
  | c :: rest, tmp, cnt =>
    let tmp2 := tmp ++ [c]
    if c = '(' then removeLinesCore rest tmp2 (cnt + 1)
    else if c = ')' then
      if cnt - 1 = 0 then
        (if swineKeep tmp2 then tmp2 else []) ++ removeLinesCore rest [] (cnt - 1)
      else removeLinesCore rest tmp2 (cnt - 1)
    else removeLinesCore rest tmp2 cnt

/-- Model of `remove_lines_for_swine` from `prover.rs`. -/
def remove_lines_for_swine (input : String) : String :=
  ⟨removeLinesCore input.toList [] 0⟩

/-- The interface of the external incremental z3 solver backend, as used by
`check_proof_assuming`: a check of the current assertions, a check under
extra assumptions, and the model / reason-unknown values the solver hands
back after a `Sat` / `Unknown` answer. -/
structure Z3Backend (M : Type) where
  check : List Formula → SatResult
  check_assumptions : List Formula → List Formula → SatResult
  get_model : M
  reason_unknown : ReasonUnknown

/-! ## The Prover state machine (`prover.rs`) -/

/-- Model of `Prover`. The z3 solver's assertion stack is represented as the
list of asserted formulas paired with the level at which each was asserted
(a `pop` discards exactly the assertions of the closed scope). -/
structure Prover where
  assertions : List (Formula × Nat)
  level : Nat
  min_level_with_provables : Option Nat
  smt_solver : SolverType
deriving DecidableEq, Repr

/-- Model of `Prover::new`. -/
def Prover.new (solver_type : SolverType) : Prover :=
  { assertions := [], level := 0, min_level_with_provables := none,
    smt_solver := solver_type }

/-- Model of `Prover::add_assumption`: assert the formula as-is. -/
def Prover.add_assumption (p : Prover) (value : Formula) : Prover :=
  { p with assertions := p.assertions ++ [(value, p.level)] }

/-- Model of `Prover::add_provable`: assert the negation and
`get_or_insert` the obligation marker with the current level. -/
def Prover.add_provable (p : Prover) (value : Formula) : Prover :=
  { p with
    assertions := p.assertions ++ [(Formula.not value, p.level)],
    min_level_with_provables :=
      some (p.min_level_with_provables.getD p.level) }

/-- Model of `Prover::push`. -/
def Prover.push (p : Prover) : Prover :=
  { p with level := p.level + 1 }

/-- Model of `Prover::pop`. At level 0 the Rust code panics
(`checked_sub(1).expect("cannot pop level 0")`); this is modelled by `none`.
Otherwise the level is decremented, the popped scope's assertions are
discarded, and the obligation marker is cleared when its level is now deeper
than the new level. -/
def Prover.pop (p : Prover) : Option Prover :=
  match p.level with
  | 0 => none
  | l + 1 =>
    some { p with
      assertions := p.assertions.filter (fun fl => fl.2 ≤ l),
      level := l,
      min_level_with_provables :=
        match p.min_level_with_provables with
        | some m => if m > l then none else some m
        | none => none }

/-- Model of `Solver::get_assertions` on the prover's solver. -/
def Prover.getAssertions (p : Prover) : List Formula :=
  p.assertions.map Prod.fst

/-- Model of `Prover::check_proof_assuming`. The external pieces are
parameters: `b` is the incremental z3 backend; `render` is the SMT-LIB
serialization of the solver state (`get_smtlib` + `add_check_sat`, defined
outside the embedded core) and `swine_run` maps the filtered SMT-LIB text
written to the temp file to the stdout of the external swine process. -/
def Prover.check_proof_assuming {M : Type} (p : Prover) (b : Z3Backend M)
    (render : List Formula → String) (swine_run : String → String)
    (assumptions : List Formula) : ProveResult M :=
  if p.min_level_with_provables.isNone then .proof
  else
    match p.smt_solver with
    | .SWINE =>
      let smtlib := render p.getAssertions
      let filtered := remove_lines_for_swine smtlib
      match execute_swine (swine_run filtered) with
      | .unsat => .proof
      | .unknown => .unknown (.other "unknown")
      | .sat => .exited 1
    | .Z3 =>
      let res :=
        if assumptions.isEmpty then b.check p.getAssertions
        else b.check_assumptions p.getAssertions assumptions
      match res with
      | .unsat => .proof
      | .unknown => .unknown b.reason_unknown
      | .sat => .counterexample b.get_model

/-- Model of `Prover::check_proof`. -/
def Prover.check_proof {M : Type} (p : Prover) (b : Z3Backend M)
    (render : List Formula → String) (swine_run : String → String) :
    ProveResult M :=
  p.check_proof_assuming b render swine_run []

/-- Model of `Prover::level`. -/
def Prover.levelOf (p : Prover) : Nat :=
  p.level

/-- Model of `Prover::to_exists_forall`: a fresh Z3 prover whose single
assumption universally quantifies the given constants over the negated
conjunction of the parent's current assertions. -/
def Prover.to_exists_forall (p : Prover) (universal : List Nat) : Prover :=
  let assertions := p.getAssertions
  let thm := Formula.forallQ universal (Formula.not (conjList assertions))
  (Prover.new .Z3).add_assumption thm

/-! ## Operation sequences over a prover -/

/-- One mutating prover operation. -/
inductive Op where
  | push
  | pop
  | add_assumption : Formula → Op
  | add_provable : Formula → Op
deriving DecidableEq, Repr

/-- Run a sequence of operations; `none` once a `pop` at level 0 panics. -/
def runOps (p : Prover) : List Op → Option Prover
  | [] => some p
  | .push :: rest => runOps p.push rest
  | .pop :: rest =>
    match p.pop with
    | none => none
    | some p2 => runOps p2 rest
  | .add_assumption f :: rest => runOps (p.add_assumption f) rest
  | .add_provable f :: rest => runOps (p.add_provable f) rest

/-- Run a sequence of operations while also tracking, as ghost state, the
levels of the provable obligations still open: `add_provable` records the
current level, and `pop` discards the obligations of the closed scope. -/
def runOpsG (p : Prover) (obls : List Nat) : List Op → Option (Prover × List Nat)
  | [] => some (p, obls)
  | .push :: rest => runOpsG p.push obls rest
  | .pop :: rest =>
    match p.pop with
    | none => none
    | some p2 => runOpsG p2 (obls.filter (fun k => k ≤ p2.level)) rest
  | .add_assumption f :: rest => runOpsG (p.add_assumption f) obls rest
  | .add_provable f :: rest => runOpsG (p.add_provable f) (obls ++ [p.level]) rest

/-- Does the operation sequence avoid `add_provable` entirely? -/
def noProvables (ops : List Op) : Bool :=
  ops.all (fun op => match op with | .add_provable _ => false | _ => true)

/-- Invariant tying the obligation marker to the ghost list of open
obligation levels: all open obligations live at or below the current level,
and the marker is `none` exactly on an empty list, otherwise the minimum. -/
def ProverInv (p : Prover) (obls : List Nat) : Prop :=
  (∀ k ∈ obls, k ≤ p.level) ∧
  match p.min_level_with_provables with
  | none => obls = []
  | some m => m ∈ obls ∧ ∀ k ∈ obls, m ≤ k

/-! ## The instrumented model (`model.rs`) -/

/-- Model of a `z3::ast::Dynamic` term: an application of a named declaration
to child terms (a constant is an application with no children, matching z3's
`is_const`). -/
inductive Term where
  | app : String → List Term → Term

mutual

/-- Structural equality on terms. -/
def Term.beq : Term → Term → Bool
  | .app n cs, .app n2 cs2 => n == n2 && Term.beqList cs cs2

/-- Structural equality on term lists. -/
def Term.beqList : List Term → List Term → Bool
  | [], [] => true
  | c :: cs, d :: ds => Term.beq c d && Term.beqList cs ds
  | _, _ => false

end

instance : BEq Term := ⟨Term.beq⟩

/-- Model of `AccessedDecls`: the set of accessed declaration names and the
set of accessed subexpressions (the `im_rc` persistent sets become lists with
insert-if-absent semantics). -/
structure AccessedDecls where
  accessed_decls : List String
  accessed_exprs : List Term

/-- The empty `AccessedDecls` (Rust `Default`). -/
def AccessedDecls.empty : AccessedDecls :=
  { accessed_decls := [], accessed_exprs := [] }

/-- Insert a declaration name (`HashSet::insert` on `accessed_decls`). -/
def AccessedDecls.insertName (a : AccessedDecls) (n : String) : AccessedDecls :=
  if a.accessed_decls.contains n then a
  else { a with accessed_decls := n :: a.accessed_decls }

mutual

/-- Model of `AccessedDecls::mark_expr`: a constant marks its declaration
name; an application walks its children, skipping any child already in the
accessed-expressions set. -/
def markExpr (a : AccessedDecls) (t : Term) : AccessedDecls :=
  match t with
  | .app n [] => a.insertName n
  | .app _ (c :: cs) => markChildren a (c :: cs)

/-- The child loop of `mark_expr`: insert each child into the
accessed-expressions set and recurse only when it was not present before. -/
def markChildren (a : AccessedDecls) : List Term → AccessedDecls
  | [] => a
  | c :: rest =>
    if a.accessed_exprs.contains c then markChildren a rest
    else
      markChildren (markExpr { a with accessed_exprs := c :: a.accessed_exprs } c) rest

end

/-- Model of `SmtEvalError`. -/
inductive SmtEvalError where
  | EvalError
  | ParseError
deriving DecidableEq, Repr

/-- Model of `InstrumentedModel::atomically`: snapshot the accessed-tracking
state, run the function, and restore the snapshot when it fails. The Rust
closure over interior mutability becomes an explicit state-passing function. -/
def atomically {T : Type} (a : AccessedDecls)
    (f : AccessedDecls → Except SmtEvalError T × AccessedDecls) :
    Except SmtEvalError T × AccessedDecls :=
  let snapshot := a
  match f a with
  | (.error e, _) => (.error e, snapshot)
  | (.ok v, a2) => (.ok v, a2)

/-- The value handed back by `z3::Model::eval`: its possible decodings
(`as_bool`, `as_i64`, `as_real`) and its `Debug` rendering, all produced by
the external solver. `as_i64` is `none` when the value exceeds the machine
width; `as_real` is `none` when the numerator/denominator pair does not fit. -/
structure SmtValue where
  asBool : Option Bool
  asI64 : Option Int
  asReal : Option (Int × Int)
  debugRepr : String

/-- The external z3 model, indexed by the `model_completion` flag: given the
flag and a term, the value the solver assigns, if any. -/
def ZModel : Type :=
  Bool → Term → Option SmtValue

/-- Model of `InstrumentedModel::eval_ast`: mark the term in the
accessed-tracking state, then ask the external model for a value with the
given `model_completion` flag. -/
def evalAst (m : ZModel) (a : AccessedDecls) (t : Term) (completion : Bool) :
    Option SmtValue × AccessedDecls :=
  (m completion t, markExpr a t)

/-- Model of `impl SmtEval for Bool`, i.e. `evaluate_boolean`: evaluate with
`model_completion = false`; a missing value is an `EvalError`; a present
value decodes through `as_bool` with `unwrap_or(true)`. -/
def smtEvalBool (m : ZModel) (a : AccessedDecls) (t : Term) :
    Except SmtEvalError Bool × AccessedDecls :=
  let (r, a2) := evalAst m a t false
  match r with
  | none => (.error .EvalError, a2)
  | some v => (.ok (v.asBool.getD true), a2)

/-- Model of `impl SmtEval for Int`, i.e. `evaluate_integer`: evaluate with
`model_completion = true`; a missing value is an `EvalError`; a value outside
the machine width (`as_i64` fails) is a `ParseError`. -/
def smtEvalInt (m : ZModel) (a : AccessedDecls) (t : Term) :
    Except SmtEvalError Int × AccessedDecls :=
  let (r, a2) := evalAst m a t true
  match r with
  | none => (.error .EvalError, a2)
  | some v =>
    match v.asI64 with
    | none => (.error .ParseError, a2)
    | some i => (.ok i, a2)

/-- The textual fallback parser of `impl SmtEval for Real`: check the
`starts_with "(/ "` and `ends_with ".0)"` guards, split on ASCII whitespace,
require the first token to be `(/`, strip `.0` occurrences from the second
token and `.0)` occurrences from the third, and parse both as big integers.
Returns the numerator/denominator pair fed to `BigRational::new`. -/
def parseRealString (s : String) : Except SmtEvalError (Int × Int) :=
  if ¬("(/ ".toList.isPrefixOf s.toList) ∨ ¬(".0)".toList.isSuffixOf s.toList) then
    .error .ParseError
  else
    match splitWsCore s.toList [] with
    | [] => .error .ParseError
    | first :: rest1 =>
      if first ≠ "(/".toList then .error .ParseError
      else
        match rest1 with
        | [] => .error .ParseError
        | second :: rest2 =>
          match parseBigInt (removeAll ".0".toList second) with
          | none => .error .ParseError
          | some num =>
            match rest2 with
            | [] => .error .ParseError
            | third :: _ =>
              match parseBigInt (removeAll ".0)".toList third) with
              | none => .error .ParseError
              | some den => .ok (num, den)

/-- Model of `BigRational::new`: the exact reduced rational with the given
numerator and denominator. (Rust panics on a zero denominator; no code path
embedded here constructs one from a successful z3 answer.) -/
def bigRationalNew (num den : Int) : Rat :=
  (num : Rat) / (den : Rat)

/-- Model of `impl SmtEval for Real`, i.e. `evaluate_rational`: evaluate with
`model_completion = false`; prefer the native `as_real` pair; otherwise parse
the `Debug` rendering and build the exact rational. -/
def smtEvalReal (m : ZModel) (a : AccessedDecls) (t : Term) :
    Except SmtEvalError Rat × AccessedDecls :=
  let (r, a2) := evalAst m a t false
  match r with
  | none => (.error .EvalError, a2)
  | some v =>
    match v.asReal with
    | some (num, den) => (.ok (bigRationalNew num den), a2)
    | none =>
      match parseRealString v.debugRepr with
      | .error e => (.error e, a2)
      | .ok (num, den) => (.ok (bigRationalNew num den), a2)

/-- An integer literal as rendered inside the canonical rational string:
an optional sign followed by one or more decimal digits. -/
def isIntLit (cs : List Char) : Bool :=
  (parseBigInt cs).isSome

/-- The canonical textual rendering of a rational, per the spec's words:
exactly the shape `(/ <int>.0 <int>.0)` — three whitespace-separated tokens
`(/`, `<int>.0`, `<int>.0)` with single spaces and integer literals. -/
def isCanonicalRealString (s : String) : Bool :=
  match splitWsCore s.toList [] with
  | [p1, p2, p3] =>
    p1 = "(/".toList &&
    ".0".toList.isSuffixOf p2 && isIntLit (p2.take (p2.length - 2)) &&
    ".0)".toList.isSuffixOf p3 && isIntLit (p3.take (p3.length - 3)) &&
    s.toList = p1 ++ ' ' :: p2 ++ ' ' :: p3
  | _ => false

/-! ## Concrete instantiations used in witnesses and counterexamples -/

/-- A trivial backend whose answers are never inspected on the taken paths. -/
def dummyBackend : Z3Backend Unit :=
  { check := fun _ => .unknown, check_assumptions := fun _ _ => .unknown,
    get_model := (), reason_unknown := .other "dummy" }

/-- A trivial SMT-LIB rendering. -/
def dummyRender : List Formula → String :=
  fun _ => ""

/-- An ideal, complete incremental backend: it decides `satFormulas` of the
asserted formulas (together with the extra assumptions, for
`check_assumptions`). -/
def idealBackend : Z3Backend Unit :=
  { check := fun fs => if satFormulas fs then .sat else .unsat,
    check_assumptions := fun fs as => if satFormulas (fs ++ as) then .sat else .unsat,
    get_model := (), reason_unknown := .other "ideal" }

/-- An ideal external-pipeline rendering for the swine path: the rendered
text announces the satisfiability of the rendered assertions, exactly the
information a complete external solver run would print. -/
def idealRender : List Formula → String :=
  fun fs => if satFormulas fs then "(sat)" else "(unsat)"

/-- A rendering whose filtered text always reads `(unsat)`. -/
def renderUnsat : List Formula → String :=
  fun _ => "(unsat)"

/-- A SWINE prover holding one proof obligation `var 0`. -/
def proverSW : Prover :=
  (Prover.new .SWINE).add_provable (.var 0)

/-- A Z3 prover holding one proof obligation `var 1`. -/
def proverZ3 : Prover :=
  (Prover.new .Z3).add_provable (.var 1)

/-- A constant term named `x`. -/
def termX : Term :=
  Term.app "x" []

/-- A backend value that decodes to nothing at all. -/
def valNonBool : SmtValue :=
  { asBool := none, asI64 := none, asReal := none, debugRepr := "decl" }

/-- A backend value that decodes to the boolean `false`. -/
def valBoolFalse : SmtValue :=
  { asBool := some false, asI64 := none, asReal := none, debugRepr := "false" }

/-- A backend value that decodes to the boolean `true`. -/
def valTrue : SmtValue :=
  { asBool := some true, asI64 := none, asReal := none, debugRepr := "true" }

/-- A backend value with no native rational pair whose textual rendering is
the canonical `(/ 10.0 3.0)`. -/
def valRat : SmtValue :=
  { asBool := none, asI64 := none, asReal := none, debugRepr := "(/ 10.0 3.0)" }

/-- A model assigning every term a value that is not a boolean. -/
def modelNonBool : ZModel :=
  fun _ _ => some valNonBool

/-- A model assigning every term the boolean `false`. -/
def modelBoolFalse : ZModel :=
  fun _ _ => some valBoolFalse

/-- A model that assigns values only when model completion is enabled. -/
def modelOnlyCompletion : ZModel :=
  fun completion _ => if completion then some valTrue else none

/-- A model assigning no values at all. -/
def modelNone : ZModel :=
  fun _ _ => none

/-- A model assigning every term the boolean `true`. -/
def modelAllTrue : ZModel :=
  fun _ _ => some valTrue

/-- A model whose values carry only the textual rendering `(/ 10.0 3.0)`. -/
def modelRat : ZModel :=
  fun _ _ => some valRat

/-- An evaluation function that records a mark and then fails. -/
def evalFail : AccessedDecls → Except SmtEvalError Nat × AccessedDecls :=
  fun a => (.error .EvalError, a.insertName "junk")

/-- An evaluation function that records a mark and then succeeds. -/
def evalOk : AccessedDecls → Except SmtEvalError Nat × AccessedDecls :=
  fun a => (.ok 5, a.insertName "fresh")

/-- A nonempty accessed-tracking state. -/
def accessedOne : AccessedDecls :=
  AccessedDecls.empty.insertName "kept"

/-! ## Helper lemmas -/

theorem pop_eq_some {p q : Prover} (h : p.pop = some q) :
    ∃ l, p.level = l + 1 ∧
      q = { p with
        assertions := p.assertions.filter (fun fl => fl.2 ≤ l),
        level := l,
        min_level_with_provables :=
          match p.min_level_with_provables with
          | some m => if m > l then none else some m
          | none => none } := by
  unfold Prover.pop at h
  rcases hl : p.level with _ | l
  · rw [hl] at h; cases h
  · rw [hl] at h
    injection h with h
    exact ⟨l, rfl, h.symm⟩

theorem runOps_marker_none :
    ∀ (ops : List Op) (p q : Prover), noProvables ops = true →
      p.min_level_with_provables = none → runOps p ops = some q →
      q.min_level_with_provables = none := by
  intro ops
  induction ops with
  | nil =>
    intro p q _ hm hr
    simp only [runOps, Option.some.injEq] at hr
    exact hr ▸ hm
  | cons op rest ih =>
    intro p q hno hr hm
    have hno2 : noProvables rest = true := by
      simp only [noProvables, List.all_cons, Bool.and_eq_true] at hno
      exact hno.2
    cases op with
    | push => exact ih p.push q hno2 hr hm
    | add_assumption f => exact ih (p.add_assumption f) q hno2 hr hm
    | add_provable f =>
      simp [noProvables, List.all_cons] at hno
    | pop =>
      simp only [runOps] at hm
      rcases hp : p.pop with _ | p2
      · rw [hp] at hm; cases hm
      · rw [hp] at hm
        obtain ⟨l, _, hq⟩ := pop_eq_some hp
        have : p2.min_level_with_provables = none := by
          rw [hq]
          simp only
          rw [hr]
        exact ih p2 q hno2 this hm

theorem check_proof_assuming_of_marker_none {M : Type} (p : Prover)
    (b : Z3Backend M) (render : List Formula → String)
    (swine_run : String → String) (A : List Formula)
    (h : p.min_level_with_provables = none) :
    p.check_proof_assuming b render swine_run A = .proof := by
  simp [Prover.check_proof_assuming, h]

theorem proverInv_push {p : Prover} {obls : List Nat} (h : ProverInv p obls) :
    ProverInv p.push obls :=
  ⟨fun k hk => Nat.le_succ_of_le (h.1 k hk), h.2⟩

theorem proverInv_add_assumption {p : Prover} {obls : List Nat} (f : Formula)
    (h : ProverInv p obls) : ProverInv (p.add_assumption f) obls :=
  h

theorem proverInv_add_provable {p : Prover} {obls : List Nat} (f : Formula)
    (h : ProverInv p obls) : ProverInv (p.add_provable f) (obls ++ [p.level]) := by
  obtain ⟨hb, hm⟩ := h
  constructor
  · intro k hk
    rcases List.mem_append.1 hk with hk | hk
    · exact hb k hk
    · simp only [List.mem_singleton] at hk
      exact hk ▸ le_refl _
  · show match some (p.min_level_with_provables.getD p.level) with
      | none => obls ++ [p.level] = []
      | some m => m ∈ obls ++ [p.level] ∧ ∀ k ∈ obls ++ [p.level], m ≤ k
    rcases hmm : p.min_level_with_provables with _ | m
    · rw [hmm] at hm
      have hm2 : obls = [] := hm
      subst hm2
      simp
    · rw [hmm] at hm
      have hm2 : m ∈ obls ∧ ∀ k ∈ obls, m ≤ k := hm
      obtain ⟨hmem, hmin⟩ := hm2
      simp only [Option.getD]
      constructor
      · exact List.mem_append.2 (Or.inl hmem)
      · intro k hk
        rcases List.mem_append.1 hk with hk | hk
        · exact hmin k hk
        · simp only [List.mem_singleton] at hk
          exact hk ▸ hb m hmem

theorem proverInv_pop {p q : Prover} {obls : List Nat} (h : ProverInv p obls)
    (hq : p.pop = some q) :
    ProverInv q (obls.filter (fun k => k ≤ q.level)) := by
  obtain ⟨hb, hm⟩ := h
  obtain ⟨l, hl, hqe⟩ := pop_eq_some hq
  subst hqe
  constructor
  · intro k hk
    have := (List.mem_filter.1 hk).2
    simpa using this
  · show match (match p.min_level_with_provables with
        | some m => if m > l then none else some m
        | none => none) with
      | none => obls.filter (fun k => decide (k ≤ l)) = []
      | some m => m ∈ obls.filter (fun k => decide (k ≤ l)) ∧
          ∀ k ∈ obls.filter (fun k => decide (k ≤ l)), m ≤ k
    rcases hmm : p.min_level_with_provables with _ | m
    · rw [hmm] at hm
      have hm2 : obls = [] := hm
      subst hm2
      simp
    · rw [hmm] at hm
      have hm2 : m ∈ obls ∧ ∀ k ∈ obls, m ≤ k := hm
      obtain ⟨hmem, hmin⟩ := hm2
      by_cases hc : m > l
      · simp only [if_pos hc]
        rw [List.filter_eq_nil_iff]
        intro k hk
        have := hmin k hk
        simp only [decide_eq_true_eq]
        omega
      · simp only [if_neg hc]
        constructor
        · exact List.mem_filter.2 ⟨hmem, by simp; omega⟩
        · intro k hk
          exact hmin k (List.mem_filter.1 hk).1

theorem runOpsG_inv :
    ∀ (ops : List Op) (p : Prover) (obls : List Nat) (q : Prover)
      (obls2 : List Nat), ProverInv p obls →
      runOpsG p obls ops = some (q, obls2) → ProverInv q obls2 := by
  intro ops
  induction ops with
  | nil =>
    intro p obls q obls2 h hr
    simp only [runOpsG, Option.some.injEq, Prod.mk.injEq] at hr
    obtain ⟨h1, h2⟩ := hr
    exact h1 ▸ h2 ▸ h
  | cons op rest ih =>
    intro p obls q obls2 h hr
    cases op with
    | push => exact ih _ _ _ _ (proverInv_push h) hr
    | add_assumption f => exact ih _ _ _ _ (proverInv_add_assumption f h) hr
    | add_provable f => exact ih _ _ _ _ (proverInv_add_provable f h) hr
    | pop =>
      simp only [runOpsG] at hr
      rcases hp : p.pop with _ | p2
      · rw [hp] at hr; cases hr
      · rw [hp] at hr
        exact ih _ _ _ _ (proverInv_pop h hp) hr

/-! ## Claim theorems -/

/-- C1: an Oracle built by any operation sequence that never calls
`add_provable` has its obligation marker unset, and both `check_proof` and
`check_proof_assuming A` return `Proof` for every set of extra assumptions
`A` — for every backend instantiation, i.e. without invoking any backend. -/
theorem check_proof_vacuous {M : Type} (st : SolverType) (ops : List Op)
    (p : Prover) (b : Z3Backend M) (render : List Formula → String)
    (swine_run : String → String) (A : List Formula)
    (hno : noProvables ops = true)
    (hrun : runOps (Prover.new st) ops = some p) :
    p.check_proof b render swine_run = .proof ∧
    p.check_proof_assuming b render swine_run A = .proof := by
  have hm : p.min_level_with_provables = none :=
    runOps_marker_none ops (Prover.new st) p hno rfl hrun
  exact ⟨check_proof_assuming_of_marker_none p b render swine_run [] hm,
         check_proof_assuming_of_marker_none p b render swine_run A hm⟩

/-- C1 witness: a concrete assumption-only sequence (push, two assumptions,
pop) on a fresh Z3 Oracle, checked with nontrivial extra assumptions. -/
theorem check_proof_vacuous_witness :
    noProvables [Op.push, Op.add_assumption (Formula.var 0),
      Op.add_assumption Formula.ff, Op.pop] = true ∧
    runOps (Prover.new SolverType.Z3) [Op.push, Op.add_assumption (Formula.var 0),
      Op.add_assumption Formula.ff, Op.pop] = some (Prover.new SolverType.Z3) ∧
    (Prover.new SolverType.Z3).check_proof dummyBackend dummyRender id = .proof ∧
    (Prover.new SolverType.Z3).check_proof_assuming dummyBackend dummyRender id
      [Formula.var 1] = .proof :=
  ⟨by decide, by decide,
   (check_proof_vacuous SolverType.Z3
     [Op.push, Op.add_assumption (Formula.var 0),
      Op.add_assumption Formula.ff, Op.pop]
     (Prover.new SolverType.Z3) dummyBackend dummyRender id
     [Formula.var 1] (by decide) (by decide)).1,
   (check_proof_vacuous SolverType.Z3
     [Op.push, Op.add_assumption (Formula.var 0),
      Op.add_assumption Formula.ff, Op.pop]
     (Prover.new SolverType.Z3) dummyBackend dummyRender id
     [Formula.var 1] (by decide) (by decide)).2⟩

/-- C2: in every state reachable by any operation sequence from a fresh
Oracle, the obligation marker `min_level_with_provables` is `none` exactly
when the ghost list of provable obligations added at still-open scope levels
is empty; and with no open obligation every check returns `Proof`. The
witness instantiates the sequence push; add_provable; pop. -/
theorem marker_none_iff_no_obligations {M : Type} (st : SolverType)
    (ops : List Op) (p : Prover) (obls : List Nat)
    (hrun : runOpsG (Prover.new st) [] ops = some (p, obls)) :
    (p.min_level_with_provables = none ↔ obls = []) ∧
    (obls = [] → ∀ (b : Z3Backend M) (render : List Formula → String)
      (swine_run : String → String) (A : List Formula),
      p.check_proof_assuming b render swine_run A = .proof) := by
  have hinv : ProverInv p obls := by
    refine runOpsG_inv ops (Prover.new st) [] p obls ⟨?_, ?_⟩ hrun
    · intro k hk; cases hk
    · rfl
  obtain ⟨_, hm⟩ := hinv
  have hiff : p.min_level_with_provables = none ↔ obls = [] := by
    rcases hmm : p.min_level_with_provables with _ | m
    · rw [hmm] at hm
      have : obls = [] := hm
      simp [this]
    · rw [hmm] at hm
      have hm2 : m ∈ obls ∧ ∀ k ∈ obls, m ≤ k := hm
      constructor
      · intro h; cases h
      · intro h
        rw [h] at hm2
        cases hm2.1
  refine ⟨hiff, fun hobls b render swine_run A => ?_⟩
  exact check_proof_assuming_of_marker_none p b render swine_run A (hiff.mpr hobls)

/-- C2 witness: the scenario push; add_provable; pop — the marker is cleared
with the popped scope and `check_proof` returns `Proof` again. -/
theorem marker_none_iff_no_obligations_witness :
    runOpsG (Prover.new SolverType.Z3) []
      [Op.push, Op.add_provable (Formula.var 0), Op.pop]
      = some (Prover.new SolverType.Z3, []) ∧
    (Prover.new SolverType.Z3).min_level_with_provables = none ∧
    (Prover.new SolverType.Z3).check_proof_assuming dummyBackend dummyRender id []
      = .proof :=
  ⟨by decide,
   (marker_none_iff_no_obligations (M := Unit) SolverType.Z3
     [Op.push, Op.add_provable (Formula.var 0), Op.pop]
     (Prover.new SolverType.Z3) [] (by decide)).1.mpr rfl,
   (marker_none_iff_no_obligations SolverType.Z3
     [Op.push, Op.add_provable (Formula.var 0), Op.pop]
     (Prover.new SolverType.Z3) [] (by decide)).2 rfl dummyBackend dummyRender id []⟩

/-- C3: `pop` at level 0 is the unrecoverable panic (modelled by `none`),
and a successful `pop` decrements the level by exactly one. -/
theorem pop_level_semantics (p : Prover) :
    (p.level = 0 → p.pop = none) ∧
    (∀ q : Prover, p.pop = some q → q.level + 1 = p.level) := by
  constructor
  · intro h
    unfold Prover.pop
    rw [h]
  · intro q hq
    obtain ⟨l, hl, hqe⟩ := pop_eq_some hq
    rw [hqe, hl]

/-- C3 witness: a fresh Oracle (level 0) panics on `pop`; after one `push`
the `pop` succeeds and brings the level from 1 back to 0. -/
theorem pop_level_semantics_witness :
    (Prover.new SolverType.Z3).pop = none ∧
    (Prover.new SolverType.Z3).level + 1 = (Prover.new SolverType.Z3).push.level :=
  ⟨(pop_level_semantics (Prover.new SolverType.Z3)).1 rfl,
   (pop_level_semantics (Prover.new SolverType.Z3).push).2
     (Prover.new SolverType.Z3) (by decide)⟩

/-- C4 counterexample: a SWINE Oracle with obligation marker set, whose
assertions together with the extra assumptions `A = [var 0]` are
unsatisfiable — so deciding the conjunction would have to yield `Proof` —
yet `check_proof_assuming` (with ideal, complete backend pipelines) ignores
`A` and terminates the process instead. -/
theorem swine_ignores_assumptions_cex :
    proverSW.min_level_with_provables.isSome = true ∧
    satFormulas (proverSW.getAssertions ++ [Formula.var 0]) = false ∧
    proverSW.check_proof_assuming idealBackend idealRender id [Formula.var 0]
      = .exited 1 ∧
    (ProveResult.exited 1 : ProveResult Unit) ≠ .proof := by
  refine ⟨by decide, by decide, by decide, by decide⟩

/-- C4 amended: when the obligation marker is set, the Z3 path decides the
satisfiability of the conjunction of all current assertions and the extra
assumptions (shown against the ideal complete backend); the SWINE path,
however, ignores the extra assumptions entirely — its verdict is the same
for every assumption set. -/
theorem check_proof_assuming_dispatch {M : Type} (b : Z3Backend M)
    (render : List Formula → String) (swine_run : String → String)
    (p : Prover) (A : List Formula)
    (hm : p.min_level_with_provables.isSome = true) :
    (p.smt_solver = .Z3 →
      (p.check_proof_assuming idealBackend render swine_run A = .proof ↔
        satFormulas (p.getAssertions ++ A) = false)) ∧
    (p.smt_solver = .SWINE → ∀ A2 : List Formula,
      p.check_proof_assuming b render swine_run A =
        p.check_proof_assuming b render swine_run A2) := by
  have hnone : p.min_level_with_provables.isNone = false := by
    rcases h : p.min_level_with_provables with _ | m
    · rw [h] at hm; cases hm
    · rfl
  constructor
  · intro hz
    simp only [Prover.check_proof_assuming, hnone, Bool.false_eq_true,
      if_false, hz]
    rcases hA : A.isEmpty with _ | _
    · simp only [Bool.false_eq_true, if_false, idealBackend]
      rcases hs : satFormulas (p.getAssertions ++ A) with _ | _
      · simp [hs]
      · simp [hs]
    · have : A = [] := List.isEmpty_iff.mp hA
      subst this
      simp only [if_true, idealBackend, List.append_nil]
      rcases hs : satFormulas p.getAssertions with _ | _
      · simp [hs]
      · simp [hs]
  · intro hsw A2
    simp only [Prover.check_proof_assuming, hnone, Bool.false_eq_true,
      if_false, hsw]

/-- C4 amended, witness: a Z3 Oracle with obligation `var 1`; adding the
assumption `var 1` makes the assertion set unsatisfiable and the check
returns `Proof`; and the SWINE Oracle's verdict is unchanged by assumptions. -/
theorem check_proof_assuming_dispatch_witness :
    proverZ3.min_level_with_provables.isSome = true ∧
    (proverZ3.check_proof_assuming idealBackend dummyRender id [Formula.var 1]
        = .proof ↔
      satFormulas (proverZ3.getAssertions ++ [Formula.var 1]) = false) ∧
    proverSW.check_proof_assuming dummyBackend dummyRender id [Formula.var 1] =
      proverSW.check_proof_assuming dummyBackend dummyRender id [] :=
  ⟨by decide,
   (check_proof_assuming_dispatch dummyBackend dummyRender id proverZ3
     [Formula.var 1] (by decide)).1 rfl,
   (check_proof_assuming_dispatch dummyBackend dummyRender id proverSW
     [Formula.var 1] (by decide)).2 rfl []⟩

/-- C5: `atomically` restores the snapshot of the visited
declarations/subexpressions when the evaluation function fails, and keeps
the function's updates when it succeeds; the function's result is returned
unchanged either way. -/
theorem atomically_rollback {T : Type} (a : AccessedDecls)
    (f : AccessedDecls → Except SmtEvalError T × AccessedDecls) :
    (∀ e, (f a).1 = .error e → atomically a f = (.error e, a)) ∧
    (∀ v, (f a).1 = .ok v → atomically a f = (.ok v, (f a).2)) := by
  constructor
  · intro e he
    unfold atomically
    rcases hfa : f a with ⟨r, a2⟩
    rw [hfa] at he
    simp only at he
    rw [he]
  · intro v hv
    unfold atomically
    rcases hfa : f a with ⟨r, a2⟩
    rw [hfa] at hv
    simp only at hv
    rw [hv]

/-- C5 witness: a failing evaluation that marked a declaration is rolled
back to the prior visited state; a succeeding one keeps its mark. -/
theorem atomically_rollback_witness :
    atomically accessedOne evalFail = (.error .EvalError, accessedOne) ∧
    atomically accessedOne evalOk = (.ok 5, accessedOne.insertName "fresh") :=
  ⟨(atomically_rollback accessedOne evalFail).1 .EvalError rfl,
   (atomically_rollback accessedOne evalOk).2 5 rfl⟩

/-- C6 counterexample: a backend value that carries no boolean decoding is
not an evaluation error — `evaluate_boolean` silently defaults to `true`. -/
theorem bool_eval_default_cex :
    modelNonBool false termX = some valNonBool ∧
    valNonBool.asBool = none ∧
    (smtEvalBool modelNonBool AccessedDecls.empty termX).1 = .ok true :=
  ⟨rfl, rfl, rfl⟩

/-- C6 amended: `evaluate_boolean` returns the native boolean value when the
backend produces one; when the backend produces no value at all it fails
with an evaluation error; but when the backend produces a value that is not
a native boolean, the result defaults to `true` instead of failing. -/
theorem bool_eval_semantics (m : ZModel) (a : AccessedDecls) (t : Term) :
    (m false t = none → (smtEvalBool m a t).1 = .error .EvalError) ∧
    (∀ v bv, m false t = some v → v.asBool = some bv →
      (smtEvalBool m a t).1 = .ok bv) ∧
    (∀ v, m false t = some v → v.asBool = none →
      (smtEvalBool m a t).1 = .ok true) := by
    refine ⟨fun h => ?_, fun v bv hv hb => ?_, fun v hv hb => ?_⟩
    · simp [smtEvalBool, evalAst, h]
    · simp [smtEvalBool, evalAst, hv, hb]
    · simp [smtEvalBool, evalAst, hv, hb]

/-- C6 amended, witness: a backend assigning the native boolean `false` is
decoded to `false`; a backend assigning no value yields the evaluation
error. -/
theorem bool_eval_semantics_witness :
    (smtEvalBool modelBoolFalse AccessedDecls.empty termX).1 = .ok false ∧
    (smtEvalBool modelNone AccessedDecls.empty termX).1 = .error .EvalError :=
  ⟨(bool_eval_semantics modelBoolFalse AccessedDecls.empty termX).2.1
     valBoolFalse false rfl rfl,
   (bool_eval_semantics modelNone AccessedDecls.empty termX).1 rfl⟩

/-- C7 counterexample: the string `(/ 1.0.0 2.0)` deviates from the canonical
shape `(/ <int>.0 <int>.0)`, yet the textual fallback decoder does not fail —
it strips every `.0` occurrence and decodes the string to one half. -/
theorem rational_parse_deviation_cex :
    isCanonicalRealString "(/ 1.0.0 2.0)" = false ∧
    parseRealString "(/ 1.0.0 2.0)" = .ok (1, 2) := by
  refine ⟨by decide, rfl⟩

/-- C7 amended: the canonical string `(/ 10.0 3.0)` decodes to exactly the
rational ten-thirds; the decoder does enforce the `(/ ` prefix and `.0)`
suffix guards, failing with a parse error when either is violated; and when
the native numerator/denominator pair is unavailable, `evaluate_rational`
decodes exactly by this textual parse — but strings deviating from the
canonical shape can still parse (see the counterexample) rather than always
failing. -/
theorem rational_textual_decode (s : String) (m : ZModel) (a : AccessedDecls)
    (t : Term) (v : SmtValue) :
    parseRealString "(/ 10.0 3.0)" = .ok (10, 3) ∧
    bigRationalNew 10 3 = (10 : Rat) / 3 ∧
    (¬("(/ ".toList.isPrefixOf s.toList) ∨ ¬(".0)".toList.isSuffixOf s.toList) →
      parseRealString s = .error .ParseError) ∧
    (m false t = some v → v.asReal = none →
      (smtEvalReal m a t).1 =
        (parseRealString v.debugRepr).map (fun nd => bigRationalNew nd.1 nd.2)) := by
  refine ⟨rfl, rfl, fun h => ?_, fun hv hr => ?_⟩
  · unfold parseRealString
    rw [if_pos h]
  · unfold smtEvalReal evalAst
    simp only [hv, hr]
    rcases hp : parseRealString v.debugRepr with e | nd
    · rfl
    · rcases nd with ⟨num, den⟩
      rfl

/-- C7 amended, witness: a string missing the prefix fails with a parse
error, and a model value carrying only the textual rendering `(/ 10.0 3.0)`
evaluates to exactly ten-thirds. -/
theorem rational_textual_decode_witness :
    parseRealString "sat" = .error .ParseError ∧
    (smtEvalReal modelRat AccessedDecls.empty termX).1 =
      (parseRealString "(/ 10.0 3.0)").map (fun nd => bigRationalNew nd.1 nd.2) :=
  ⟨(rational_textual_decode "sat" modelRat AccessedDecls.empty termX valRat).2.2.1
     (Or.inl (by decide)),
   (rational_textual_decode "sat" modelRat AccessedDecls.empty termX valRat).2.2.2
     rfl rfl⟩

/-- C8: for a SWINE-backed Oracle with the obligation marker set, the
captured standard output of the external process determines the verdict:
containing "unsat" yields `Proof`; containing "sat" but not "unsat" is the
hard process termination; containing neither yields `Unknown` with the
reason string "unknown". -/
theorem swine_output_three_way {M : Type} (b : Z3Backend M)
    (render : List Formula → String) (swine_run : String → String)
    (p : Prover) (A : List Formula) (out : String)
    (hm : p.min_level_with_provables.isSome = true)
    (hsw : p.smt_solver = .SWINE)
    (hout : out = swine_run (remove_lines_for_swine (render p.getAssertions))) :
    (containsSubstr out "unsat" = true →
      p.check_proof_assuming b render swine_run A = .proof) ∧
    (containsSubstr out "unsat" = false → containsSubstr out "sat" = true →
      p.check_proof_assuming b render swine_run A = .exited 1) ∧
    (containsSubstr out "unsat" = false → containsSubstr out "sat" = false →
      p.check_proof_assuming b render swine_run A = .unknown (.other "unknown")) := by
  have hnone : p.min_level_with_provables.isNone = false := by
    rcases h : p.min_level_with_provables with _ | m
    · rw [h] at hm; cases hm
    · rfl
  refine ⟨fun h1 => ?_, fun h1 h2 => ?_, fun h1 h2 => ?_⟩
  · simp [Prover.check_proof_assuming, hnone, hsw, execute_swine, ← hout, h1]
  · simp [Prover.check_proof_assuming, hnone, hsw, execute_swine, ← hout, h1, h2]
  · simp [Prover.check_proof_assuming, hnone, hsw, execute_swine, ← hout, h1, h2]

/-- C8 witness: a SWINE Oracle with an obligation, whose rendered state
filters to the text `(unsat)` — the output contains "unsat" and the check
yields `Proof`. -/
theorem swine_output_three_way_witness :
    containsSubstr "(unsat)" "unsat" = true ∧
    proverSW.check_proof_assuming dummyBackend renderUnsat id [] = .proof :=
  ⟨by decide,
   (swine_output_three_way dummyBackend renderUnsat id proverSW [] "(unsat)"
     (by decide) rfl (by decide)).1 (by decide)⟩

/-- C9 counterexample: a model that assigns a native boolean to the term
only under model completion; `evaluate_boolean` passes
`model_completion = false` and therefore fails with an evaluation error
instead of decoding that completion-enabled value. -/
theorem completion_flag_cex :
    modelOnlyCompletion true termX = some valTrue ∧
    valTrue.asBool = some true ∧
    (smtEvalBool modelOnlyCompletion AccessedDecls.empty termX).1
      = .error .EvalError :=
  ⟨rfl, rfl, rfl⟩

/-- C9 amended: `evaluate_integer` asks the backend with model completion
enabled (its result depends only on the completion-enabled evaluations),
while `evaluate_boolean` and `evaluate_rational` ask with model completion
disabled (their results depend only on the completion-disabled
evaluations). -/
theorem eval_completion_flags (m m2 : ZModel) (a : AccessedDecls) (t : Term) :
    ((∀ t2, m false t2 = m2 false t2) →
      (smtEvalBool m a t).1 = (smtEvalBool m2 a t).1 ∧
      (smtEvalReal m a t).1 = (smtEvalReal m2 a t).1) ∧
    ((∀ t2, m true t2 = m2 true t2) →
      (smtEvalInt m a t).1 = (smtEvalInt m2 a t).1) := by
  refine ⟨fun h => ⟨?_, ?_⟩, fun h => ?_⟩
  · simp only [smtEvalBool, evalAst, h t]
  · simp only [smtEvalReal, evalAst, h t]
  · simp only [smtEvalInt, evalAst, h t]

/-- C9 amended, witness: a model answering only under completion agrees on
the completion-disabled side with the empty model, so `evaluate_boolean`
coincides on them; it agrees on the completion-enabled side with the
everywhere-true model, so `evaluate_integer` coincides on them. -/
theorem eval_completion_flags_witness :
    (smtEvalBool modelOnlyCompletion AccessedDecls.empty termX).1 =
      (smtEvalBool modelNone AccessedDecls.empty termX).1 ∧
    (smtEvalInt modelOnlyCompletion AccessedDecls.empty termX).1 =
      (smtEvalInt modelAllTrue AccessedDecls.empty termX).1 :=
  ⟨((eval_completion_flags modelOnlyCompletion modelNone AccessedDecls.empty
      termX).1 (fun _ => rfl)).1,
   (eval_completion_flags modelOnlyCompletion modelAllTrue AccessedDecls.empty
      termX).2 (fun _ => rfl)⟩

/-- C10: for every Oracle, whatever its own backend kind,
`to_exists_forall universal` is a fresh independent Oracle at level 0 with
the Z3 backend kind, no obligation marker, and exactly one assumption: the
universal quantification over the given identifiers of the negated
conjunction of the parent's current assertions. -/
theorem to_exists_forall_shape (p : Prover) (universal : List Nat) :
    p.to_exists_forall universal =
      { assertions :=
          [(Formula.forallQ universal (Formula.not (conjList p.getAssertions)), 0)],
        level := 0,
        min_level_with_provables := none,
        smt_solver := .Z3 } :=
  rfl

end Caesar
